import Mathlib

/-!
Verification of the TinaCMS GitHub client and preview resolver.

The development shallowly embeds two components:

* `GithubClient` (react-tinacms-github/src/github-client/index.ts): a
  browser-side client that forwards GitHub operations through a proxy.
  Network effects are made explicit: each operation takes the proxy
  response it would receive as a parameter and additionally returns the
  list of proxy requests it actually issued, so "no network call was
  made" is expressible as an empty request list.  Cookie state is an
  explicit two-slot structure threaded through the operations.

* `getGithubPreviewProps` (next-tinacms-github/src/get-github-preview-props.ts):
  a server-side helper; its content fetch (`getDecodedData`) is passed in
  as an `Except` value and JavaScript exception propagation is modelled
  with `Except` results.

JavaScript truthiness on strings (empty string is falsy) and on numbers
(`(e.status = 401)` evaluates to the assigned value `401`, which is
truthy) is translated explicitly at each use site.
-/

namespace Tina

/-! ## Error taxonomy -/

/-- The typed error thrown by `getGithubResponse`: `GithubError extends Error`
with `message` and `status` fields. -/
structure GithubError where
  message : String
  status : Nat
deriving DecidableEq, Repr

/-- A thrown JavaScript value: either a `GithubError` or a plain `Error`
carrying only a message (such as the one thrown by `repoFullName`). -/
inductive JsError where
  | github (e : GithubError)
  | plain (message : String)
deriving DecidableEq, Repr

/-! ## Cookie store -/

/-- Cookie key `GithubClient.FORK_COOKIE_KEY = 'fork_full_name'`. -/
def FORK_COOKIE_KEY : String := "fork_full_name"

/-- Cookie key `GithubClient.HEAD_BRANCH_COOKIE_KEY = 'head_branch'`. -/
def HEAD_BRANCH_COOKIE_KEY : String := "head_branch"

/-- The two cookie slots the client uses (`js-cookie` store restricted to
the two keys the client ever touches); `none` models an absent cookie. -/
structure Cookies where
  fork_full_name : Option String
  head_branch : Option String
deriving DecidableEq, Repr

/-- `Cookies.get(cookieName)` restricted to the two keys in use. -/
def getCookie (ck : Cookies) (cookieName : String) : Option String :=
  if cookieName = FORK_COOKIE_KEY then ck.fork_full_name
  else if cookieName = HEAD_BRANCH_COOKIE_KEY then ck.head_branch
  else none

/-- `Cookies.set(cookieName, val, { sameSite: 'strict' })`. -/
def setCookie (ck : Cookies) (cookieName : String) (val : String) : Cookies :=
  if cookieName = FORK_COOKIE_KEY then ⟨some val, ck.head_branch⟩
  else if cookieName = HEAD_BRANCH_COOKIE_KEY then ⟨ck.fork_full_name, some val⟩
  else ck

/-! ## Client identity and proxy requests -/

/-- Constructor state of `GithubClient`: `proxy`, `baseRepoFullName`,
`baseBranch` (defaulting to `'master'` at the construction site). -/
structure GithubClient where
  proxy : String
  baseRepoFullName : String
  baseBranch : String
deriving DecidableEq, Repr

/-- Body of a `createPR` proxy request. -/
structure PRPayload where
  title : String
  body : String
  head : String
  base : String
deriving DecidableEq, Repr

/-- Body of a `commit` proxy request. -/
structure CommitPayload where
  message : String
  content : String
  sha : String
  branch : String
deriving DecidableEq, Repr

/-- The `data` field of a proxy request, for the two operations that send one. -/
inductive ReqData where
  | pr (p : PRPayload)
  | commitFile (c : CommitPayload)
deriving DecidableEq, Repr

/-- The operation descriptor `{ url, method, data }` POSTed to the proxy. -/
structure ProxyRequest where
  url : String
  method : String
  data : Option ReqData
deriving DecidableEq, Repr

/-! ## Response interpretation -/

/-- The proxy's HTTP response as seen by one operation, with the JSON body
already at the type the operation expects. -/
structure GhResponse (α : Type) where
  status : Nat
  statusText : String
  body : α
deriving DecidableEq, Repr

/-- `response.status.toString()[0] == '2'`: success is classified by the
decimal representation's leading digit being `2`. -/
def leadingDigitIs2 (n : Nat) : Bool :=
  (Nat.repr n).front == '2'

/-- `getGithubResponse`: parse the body, return it on a 2xx status, and
otherwise throw `new GithubError(response.statusText, response.status)`. -/
def getGithubResponse {α : Type} (r : GhResponse α) : Except JsError α :=
  if leadingDigitIs2 r.status then .ok r.body
  else .error (.github ⟨r.statusText, r.status⟩)

/-! ## Cookie-derived identity -/

/-- The error message `repoFullName` throws. -/
def forkNotFoundMessage : String := "GithubClient cannot find name of fork"

/-- `get repoFullName()`: read the fork cookie and throw a plain `Error`
when it is falsy (absent or the empty string). -/
def repoFullName (ck : Cookies) : Except JsError String :=
  match getCookie ck FORK_COOKIE_KEY with
  | some forkName => if forkName = "" then .error (.plain forkNotFoundMessage) else .ok forkName
  | none => .error (.plain forkNotFoundMessage)

/-- `get branchName()`: the head-branch cookie, defaulting to `'master'`
when the cookie is falsy (`getCookie(...) || 'master'`). -/
def branchName (ck : Cookies) : String :=
  match getCookie ck HEAD_BRANCH_COOKIE_KEY with
  | some b => if b = "" then "master" else b
  | none => "master"

/-! ## Unicode-safe base64 encoding -/

/-- UTF-8 encoding of one Unicode code point (given as its `Nat` value)
as a list of byte values. -/
def utf8EncodeChar (c : Nat) : List Nat :=
  if c < 0x80 then [c]
  else if c < 0x800 then [0xC0 + c / 64, 0x80 + c % 64]
  else if c < 0x10000 then
    [0xE0 + c / 4096, 0x80 + c / 64 % 64, 0x80 + c % 64]
  else
    [0xF0 + c / 262144, 0x80 + c / 4096 % 64, 0x80 + c / 64 % 64, 0x80 + c % 64]

/-- The UTF-8 byte sequence of a string. -/
def utf8Bytes (s : String) : List Nat :=
  (s.data.map (fun c => utf8EncodeChar c.toNat)).flatten

/-- The standard base64 alphabet: index 0–25 map to `A`–`Z`, 26–51 to
`a`–`z`, 52–61 to `0`–`9`, 62 to `+` and 63 to `/`. -/
def b64Char (n : Nat) : Char :=
  if n < 26 then Char.ofNat (65 + n)
  else if n < 52 then Char.ofNat (97 + (n - 26))
  else if n < 62 then Char.ofNat (48 + (n - 52))
  else if n = 62 then '+'
  else '/'

/-- Inverse of the base64 alphabet; `none` for characters outside it
(in particular for the padding character `=`). -/
def b64CharValue (c : Char) : Option Nat :=
  let n := c.toNat
  if 65 ≤ n ∧ n ≤ 90 then some (n - 65)
  else if 97 ≤ n ∧ n ≤ 122 then some (n - 97 + 26)
  else if 48 ≤ n ∧ n ≤ 57 then some (n - 48 + 52)
  else if n = 43 then some 62
  else if n = 47 then some 63
  else none

/-- Base64 encoding of a byte list: groups of three bytes become four
alphabet characters; a trailing group of one or two bytes is padded
with `=`. -/
def b64Encode : List Nat → List Char
  | [] => []
  | [a] => [b64Char (a / 4), b64Char (a % 4 * 16), '=', '=']
  | [a, b] => [b64Char (a / 4), b64Char (a % 4 * 16 + b / 16), b64Char (b % 16 * 4), '=']
  | a :: b :: c :: rest =>
    b64Char (a / 4) :: b64Char (a % 4 * 16 + b / 16) ::
      b64Char (b % 16 * 4 + c / 64) :: b64Char (c % 64) :: b64Encode rest

/-- Base64 decoding, the inverse used to state the round-trip property:
consumes four characters at a time, honouring `=` padding; `none` on
malformed input. -/
def b64Decode : List Char → Option (List Nat)
  | [] => some []
  | c1 :: c2 :: c3 :: c4 :: rest =>
    match b64CharValue c1, b64CharValue c2 with
    | some s1, some s2 =>
      if c3 = '=' then
        if c4 = '=' ∧ rest = [] then some [s1 * 4 + s2 / 16] else none
      else
        match b64CharValue c3 with
        | some s3 =>
          if c4 = '=' then
            if rest = [] then some [s1 * 4 + s2 / 16, s2 % 16 * 16 + s3 / 4] else none
          else
            match b64CharValue c4, b64Decode rest with
            | some s4, some bs =>
              some ((s1 * 4 + s2 / 16) :: (s2 % 16 * 16 + s3 / 4) :: (s3 % 4 * 64 + s4) :: bs)
            | _, _ => none
        | none => none
    | _, _ => none
  | _ => none

/-- Modelled from the spec: `b64EncodeUnicode` (imported from `./base64`,
whose source file is not part of this excerpt) is specified as a
Unicode-safe base64 encoder — the string is first converted to its UTF-8
bytes and those bytes are base64-encoded, rather than applying naive
base64 to UTF-16 code units. -/
def b64EncodeUnicode (s : String) : String :=
  String.mk (b64Encode (utf8Bytes s))

/-! ## Client operations

Each operation takes the `GhResponse` the proxy would answer its request
with, returns its JavaScript result as an `Except JsError`, and also
returns the list of proxy requests it actually issued. -/

/-- The request `getUser` sends. -/
def userRequest : ProxyRequest :=
  ⟨"https://api.github.com/user", "GET", none⟩

/-- `getUser()`: GET `/user`; the catch clause reads
`if ((e.status = 401)) return` — an assignment whose value `401` is
truthy, so every thrown error is swallowed and `undefined` is returned. -/
def getUser {α : Type} (r : GhResponse α) :
    Except JsError (Option α) × List ProxyRequest :=
  match getGithubResponse r with
  | .ok d => (.ok (some d), [userRequest])
  | .error _e => (.ok none, [userRequest])

/-- The fork-creation response body; `full_name` is the only field the
client reads, the record is otherwise returned as-is. -/
structure ForkRecord where
  full_name : String
deriving DecidableEq, Repr

/-- The request `createFork` sends. -/
def forkRequest (cl : GithubClient) : ProxyRequest :=
  ⟨"https://api.github.com/repos/" ++ cl.baseRepoFullName ++ "/forks", "POST", none⟩

/-- `createFork()`: POST `/repos/{base}/forks`; on success writes the
returned `full_name` into the fork cookie and returns the fork record. -/
def createFork (cl : GithubClient) (ck : Cookies) (r : GhResponse ForkRecord) :
    Except JsError ForkRecord × List ProxyRequest × Cookies :=
  match getGithubResponse r with
  | .ok fork =>
    (.ok fork, [forkRequest cl], setCookie ck FORK_COOKIE_KEY fork.full_name)
  | .error e => (.error e, [forkRequest cl], ck)

/-- The URL of the base repository's pulls collection. -/
def pullsUrl (cl : GithubClient) : String :=
  "https://api.github.com/repos/" ++ cl.baseRepoFullName ++ "/pulls"

/-- `createPR(title, body)`: reads the fork and branch cookies (throwing
when the fork cookie is absent, before any request), then POSTs
`/repos/{base}/pulls` with placeholder title/body when the given ones are
falsy and `head = "{forkOwner}:{branch}"`. -/
def createPR {α : Type} (cl : GithubClient) (ck : Cookies) (r : GhResponse α)
    (title body : String) : Except JsError α × List ProxyRequest :=
  match repoFullName ck with
  | .error e => (.error e, [])
  | .ok forkRepoFullName =>
    let headBranch := branchName ck
    let payload : PRPayload :=
      ⟨if title = "" then "Update from TinaCMS" else title,
       if body = "" then "Please pull these awesome changes in!" else body,
       (forkRepoFullName.splitOn "/").headD "" ++ ":" ++ headBranch,
       cl.baseBranch⟩
    let req : ProxyRequest := ⟨pullsUrl cl, "POST", some (.pr payload)⟩
    match getGithubResponse r with
    | .ok d => (.ok d, [req])
    | .error e => (.error e, [req])

/-- A repository record inside a pull-request record. -/
structure Repo where
  full_name : String
deriving DecidableEq, Repr

/-- The `head` of a pull-request record: `ref` is always present, `repo`
may be `null` (the source reads it with `pull.head.repo?.full_name`). -/
structure PRHead where
  ref : String
  repo : Option Repo
deriving DecidableEq, Repr

/-- The `base` of a pull-request record; `repo` may be `null`. -/
structure PRBase where
  repo : Option Repo
deriving DecidableEq, Repr

/-- One element of the list GET `/repos/{base}/pulls` returns; `number`
stands for the rest of the record, which the matching logic ignores. -/
structure PullRecord where
  number : Nat
  head : PRHead
  base : PRBase
deriving DecidableEq, Repr

/-- `o?.full_name === s`: when the repository is `null` the optional
chaining yields `undefined`, which is never `===` to a string. -/
def optRepoFullNameIs (o : Option Repo) (s : String) : Bool :=
  match o with
  | some repo => repo.full_name == s
  | none => false

/-- The loop-body condition of `fetchExistingPR`, as one predicate:
`headBranch === pull.head.ref` and both repository full names match. -/
def prMatches (headBranch forkRepoFullName baseRepoFullName : String)
    (pull : PullRecord) : Bool :=
  headBranch == pull.head.ref &&
    (optRepoFullNameIs pull.head.repo forkRepoFullName &&
     optRepoFullNameIs pull.base.repo baseRepoFullName)

/-- The scanning loop of `fetchExistingPR`: first match wins, `undefined`
when the loop falls through. -/
def findMatchingPR (headBranch forkRepoFullName baseRepoFullName : String) :
    List PullRecord → Option PullRecord
  | [] => none
  | pull :: rest =>
    if prMatches headBranch forkRepoFullName baseRepoFullName pull then some pull
    else findMatchingPR headBranch forkRepoFullName baseRepoFullName rest

/-- `fetchExistingPR()`: reads the cookies (throwing before any request
when the fork cookie is absent), GETs `/repos/{base}/pulls` and scans the
result for the first matching record. -/
def fetchExistingPR (cl : GithubClient) (ck : Cookies)
    (r : GhResponse (List PullRecord)) :
    Except JsError (Option PullRecord) × List ProxyRequest :=
  match repoFullName ck with
  | .error e => (.error e, [])
  | .ok forkRepoFullName =>
    let headBranch := branchName ck
    let req : ProxyRequest := ⟨pullsUrl cl, "GET", none⟩
    match getGithubResponse r with
    | .ok branches =>
      (.ok (findMatchingPR headBranch forkRepoFullName cl.baseRepoFullName branches), [req])
    | .error e => (.error e, [req])

/-- `getBranch()`: the whole body, including the `repoFullName` cookie
read, sits inside a try whose catch reads `if ((e.status = 404)) return`
— an assignment whose value `404` is truthy, so every thrown error
(including the missing-fork error) is swallowed and `undefined` is
returned. -/
def getBranch {α : Type} (ck : Cookies) (r : GhResponse α) :
    Except JsError (Option α) × List ProxyRequest :=
  match repoFullName ck with
  | .error _e => (.ok none, [])
  | .ok rfn =>
    let branch := branchName ck
    let req : ProxyRequest :=
      ⟨"https://api.github.com/repos/" ++ rfn ++ "/git/ref/heads/" ++ branch, "GET", none⟩
    match getGithubResponse r with
    | .ok d => (.ok (some d), [req])
    | .error _e => (.ok none, [req])

/-- `commit(filePath, sha, fileContents, commitMessage)`: reads the
cookies (throwing before any request when the fork cookie is absent),
then PUTs `/repos/{fork}/contents/{path}` with the Unicode-safe
base64-encoded contents. -/
def commit {α : Type} (ck : Cookies) (r : GhResponse α)
    (filePath sha fileContents commitMessage : String) :
    Except JsError α × List ProxyRequest :=
  match repoFullName ck with
  | .error e => (.error e, [])
  | .ok repo =>
    let branch := branchName ck
    let req : ProxyRequest :=
      ⟨"https://api.github.com/repos/" ++ repo ++ "/contents/" ++ filePath, "PUT",
       some (.commitFile ⟨commitMessage, b64EncodeUnicode fileContents, sha, branch⟩)⟩
    match getGithubResponse r with
    | .ok d => (.ok d, [req])
    | .error e => (.error e, [req])

/-! ## Preview resolver (`getGithubPreviewProps`) -/

/-- The `sourceProvider` connection record. -/
structure SourceProviderConnection where
  forkFullName : String
  headBranch : String
deriving DecidableEq, Repr

/-- A non-GitHub JavaScript exception (network failure, a failure thrown
by the caller-supplied `parse`, ...), kept abstract. -/
structure OtherExn where
  tag : String
deriving DecidableEq, Repr

/-- What the content fetch `getDecodedData` can throw: a `GithubError`
(the one kind the resolver recovers from) or anything else. -/
inductive FetchExn where
  | github (e : GithubError)
  | other (x : OtherExn)
deriving DecidableEq, Repr

/-- The successful result of `getDecodedData`: the blob `sha` and the
decoded `content` string. -/
structure DecodedData where
  sha : String
  content : String
deriving DecidableEq, Repr

/-- The `file` member of the preview props. -/
structure GithubFile (Data : Type) where
  sha : String
  fileRelativePath : String
  data : Data
deriving DecidableEq, Repr

/-- The props envelope `getGithubPreviewProps` resolves to. -/
structure PreviewProps (Data : Type) where
  preview : Bool
  sourceProvider : SourceProviderConnection
  file : Option (GithubFile Data)
  error : Option GithubError
deriving DecidableEq, Repr

/-- The options record `getGithubPreviewProps` receives; `parse` may
throw, modelled as an `Except` result. -/
structure PreviewOptions (Data : Type) where
  github_access_token : String
  fork_full_name : String
  head_branch : String
  fileRelativePath : String
  parse : String → Except OtherExn Data

/-- The `sourceProvider` the resolver builds:
`options.fork_full_name || ''` is the identity on strings, and
`options.head_branch || 'master'` defaults the falsy empty string. -/
def previewSourceProvider {Data : Type} (opts : PreviewOptions Data) :
    SourceProviderConnection :=
  ⟨opts.fork_full_name,
   if opts.head_branch = "" then "master" else opts.head_branch⟩

/-- `{ ...e }`: the shallow copy of a caught `GithubError` into a plain
serializable object, carrying its data but not its prototype. -/
def errorToPlain (e : GithubError) : GithubError :=
  ⟨e.message, e.status⟩

/-- `getGithubPreviewProps(options)`, with the result of the
`getDecodedData` call passed in as `fetchResult`.  A `GithubError` from
the fetch is caught and shallow-copied into the envelope's `error` slot;
any other exception — including one thrown by the caller-supplied
`parse` — propagates as the `Except.error` case. -/
def getGithubPreviewProps {Data : Type} (opts : PreviewOptions Data)
    (fetchResult : Except FetchExn DecodedData) :
    Except OtherExn (PreviewProps Data) :=
  let sourceProvider := previewSourceProvider opts
  match fetchResult with
  | .ok response =>
    match opts.parse response.content with
    | .ok d =>
      .ok ⟨true, sourceProvider, some ⟨response.sha, opts.fileRelativePath, d⟩, none⟩
    | .error x => .error x
  | .error (.github e) =>
    .ok ⟨true, sourceProvider, none, some (errorToPlain e)⟩
  | .error (.other x) => .error x

/-- `githubErrorMessage`: the diagnostic logged when a `GithubError` is
caught; the token itself never appears, only whether one was present
(`accessToken ? '******' : 'undefined'`, empty string being falsy). -/
def githubErrorMessage (path : String) (accessToken : Option String)
    (sourceProvider : SourceProviderConnection) : String :=
  "next-tinacms-github: Failed to fetch file from GitHub\n- file: \t" ++ path ++
  "\n- repo: \t" ++ sourceProvider.forkFullName ++
  "\n- branch: \t" ++ sourceProvider.headBranch ++
  "\n- accessToken: \t" ++
  (match accessToken with
   | some t => if t = "" then "undefined" else "******"
   | none => "undefined") ++ "\n"

/-! ## Helper lemmas: base64 -/

theorem b64CharValue_b64Char : ∀ n, n < 64 → b64CharValue (b64Char n) = some n := by
  decide

theorem b64Char_ne_pad : ∀ n, n < 64 → b64Char n ≠ '=' := by
  decide

theorem b64Decode_b64Encode (bs : List Nat) (h : ∀ b ∈ bs, b < 256) :
    b64Decode (b64Encode bs) = some bs := by
  induction bs using b64Encode.induct with
  | case1 => rfl
  | case2 a =>
    have ha : a < 256 := h a (by simp)
    have h1 : a / 4 < 64 := by omega
    have h2 : a % 4 * 16 < 64 := by omega
    simp only [b64Encode, b64Decode, b64CharValue_b64Char _ h1, b64CharValue_b64Char _ h2]
    simp only [List.cons.injEq, and_true, if_pos, reduceIte, Option.some.injEq]
    omega
  | case3 a b =>
    have ha : a < 256 := h a (by simp)
    have hb : b < 256 := h b (by simp)
    have h1 : a / 4 < 64 := by omega
    have h2 : a % 4 * 16 + b / 16 < 64 := by omega
    have h3 : b % 16 * 4 < 64 := by omega
    simp only [b64Encode, b64Decode, b64CharValue_b64Char _ h1, b64CharValue_b64Char _ h2,
      b64CharValue_b64Char _ h3]
    simp only [b64Char_ne_pad _ h3, if_false, reduceIte, List.cons.injEq, and_true,
      Option.some.injEq]
    omega
  | case4 a b c rest ih =>
    have ha : a < 256 := h a (by simp)
    have hb : b < 256 := h b (by simp)
    have hc : c < 256 := h c (by simp)
    have hrest : ∀ x ∈ rest, x < 256 := by
      intro x hx
      exact h x (by simp [hx])
    have h1 : a / 4 < 64 := by omega
    have h2 : a % 4 * 16 + b / 16 < 64 := by omega
    have h3 : b % 16 * 4 + c / 64 < 64 := by omega
    have h4 : c % 64 < 64 := by omega
    simp only [b64Encode, b64Decode, b64CharValue_b64Char _ h1, b64CharValue_b64Char _ h2,
      b64CharValue_b64Char _ h3, b64CharValue_b64Char _ h4]
    simp only [b64Char_ne_pad _ h3, b64Char_ne_pad _ h4, if_false, reduceIte, ih hrest,
      List.cons.injEq, Option.some.injEq]
    refine ⟨by omega, by omega, by omega, trivial⟩

theorem char_toNat_lt (c : Char) : c.toNat < 1114112 := by
  have h := c.valid
  rcases h with h | ⟨h1, h2⟩ <;> simp [Char.toNat] <;> omega

theorem utf8EncodeChar_lt (n : Nat) (hn : n < 1114112) :
    ∀ b ∈ utf8EncodeChar n, b < 256 := by
  intro b hb
  unfold utf8EncodeChar at hb
  split_ifs at hb <;>
    simp only [List.mem_cons, List.not_mem_nil, or_false] at hb <;>
    omega

theorem utf8Bytes_lt (s : String) : ∀ b ∈ utf8Bytes s, b < 256 := by
  intro b hb
  simp only [utf8Bytes, List.mem_flatten, List.mem_map] at hb
  obtain ⟨l, ⟨c, _hc, rfl⟩, hbl⟩ := hb
  exact utf8EncodeChar_lt c.toNat (char_toNat_lt c) b hbl

theorem b64EncodeUnicode_roundtrip (s : String) :
    b64Decode (b64EncodeUnicode s).toList = some (utf8Bytes s) :=
  b64Decode_b64Encode (utf8Bytes s) (utf8Bytes_lt s)

/-! ## Helper lemmas: cookies, responses, PR scan -/

theorem repoFullName_some (ck : Cookies) (f : String)
    (hf : ck.fork_full_name = some f) (hne : f ≠ "") :
    repoFullName ck = .ok f := by
  simp [repoFullName, getCookie, hf, hne]

theorem getGithubResponse_2xx {α : Type} (r : GhResponse α)
    (h2 : leadingDigitIs2 r.status = true) :
    getGithubResponse r = .ok r.body := by
  simp [getGithubResponse, h2]

theorem getGithubResponse_non2xx {α : Type} (r : GhResponse α)
    (h2 : leadingDigitIs2 r.status = false) :
    getGithubResponse r = .error (.github ⟨r.statusText, r.status⟩) := by
  simp [getGithubResponse, h2]

theorem findMatchingPR_eq_find? (hbr fn bn : String) (ps : List PullRecord) :
    findMatchingPR hbr fn bn ps = ps.find? (prMatches hbr fn bn) := by
  induction ps with
  | nil => rfl
  | cons p rest ih =>
    by_cases hp : prMatches hbr fn bn p = true
    · simp [findMatchingPR, hp, List.find?_cons_of_pos]
    · simp only [Bool.not_eq_true] at hp
      simp [findMatchingPR, hp, List.find?_cons_of_neg, ih]

/-! ## Concrete fixtures used by witnesses and counterexample evaluations -/

def sampleClient : GithubClient := ⟨"/api/proxy", "org/site", "master"⟩

def emptyCookies : Cookies := ⟨none, none⟩

def sampleCookies : Cookies := ⟨some "me/site", some "edits"⟩

def prA : PullRecord := ⟨1, ⟨"edits", some ⟨"other/site"⟩⟩, ⟨some ⟨"org/site"⟩⟩⟩

def prB : PullRecord := ⟨2, ⟨"edits", some ⟨"me/site"⟩⟩, ⟨some ⟨"org/site"⟩⟩⟩

def prC : PullRecord := ⟨3, ⟨"main", some ⟨"me/site"⟩⟩, ⟨some ⟨"org/site"⟩⟩⟩

def nullHeadRepoPR : PullRecord := ⟨7, ⟨"edits", none⟩, ⟨some ⟨"org/site"⟩⟩⟩

def samplePreviewOpts : PreviewOptions String :=
  ⟨"tok", "me/site", "edits", "content/p.md", fun s => .ok s⟩

/-! ## Claim theorems -/

/-- Claim C1, evaluated at the failing input.  A proxy response with
status 500 makes `createFork` raise a `GithubError` carrying status 500
and the status text, but `getUser` and `getBranch` swallow the same error
and return `undefined`, because their catch clauses test the assignment
`(e.status = 401)` (resp. `404`) instead of an equality, and the assigned
value is truthy.  This contradicts the claim that `getUser` raises for
every status other than 401 and `getBranch` for every status other than
404. -/
theorem C1_getUser_getBranch_swallow_every_error :
    getUser (⟨500, "Internal Server Error", ()⟩ : GhResponse Unit) =
      (.ok none, [userRequest]) ∧
    getBranch sampleCookies (⟨500, "Internal Server Error", ()⟩ : GhResponse Unit) =
      (.ok none,
       [⟨"https://api.github.com/repos/me/site/git/ref/heads/edits", "GET", none⟩]) ∧
    (createFork sampleClient emptyCookies
        (⟨500, "Internal Server Error", ⟨"me/site"⟩⟩ : GhResponse ForkRecord)).1 =
      .error (.github ⟨"Internal Server Error", 500⟩) :=
  ⟨rfl, rfl, rfl⟩

/-- Claim C2, evaluated at the failing input.  With the fork cookie
absent, `createPR`, `fetchExistingPR` and `commit` do raise immediately
and issue no proxy request, but `getBranch` reads the cookie inside its
try block and its catch swallows the thrown error (the truthy assignment
`(e.status = 404)`), so `getBranch` returns `undefined` instead of
raising — still without any network request. -/
theorem C2_missing_fork_cookie_getBranch_swallows :
    createPR sampleClient emptyCookies (⟨200, "OK", ()⟩ : GhResponse Unit) "t" "b" =
      (.error (.plain forkNotFoundMessage), []) ∧
    fetchExistingPR sampleClient emptyCookies ⟨200, "OK", []⟩ =
      (.error (.plain forkNotFoundMessage), []) ∧
    commit emptyCookies (⟨200, "OK", ()⟩ : GhResponse Unit) "p.md" "abc123" "hello" "msg" =
      (.error (.plain forkNotFoundMessage), []) ∧
    getBranch emptyCookies (⟨200, "OK", ()⟩ : GhResponse Unit) = (.ok none, []) :=
  ⟨rfl, rfl, rfl, rfl⟩

/-- Claim C3: when the content fetch raises a `GithubError` — recognized
by its kind, not its message — `getGithubPreviewProps` does not throw and
resolves to an envelope with `file = null`, `error` a plain shallow copy
carrying the original status, and `preview = true`; an exception of any
other kind propagates unchanged. -/
theorem C3_preview_github_error_recovered_others_propagate {Data : Type}
    (opts : PreviewOptions Data) (g : GithubError) (x : OtherExn) :
    getGithubPreviewProps opts (.error (.github g)) =
      .ok ⟨true, previewSourceProvider opts, none, some ⟨g.message, g.status⟩⟩ ∧
    getGithubPreviewProps opts (.error (.other x)) = .error x :=
  ⟨rfl, rfl⟩

/-- Claim C4: on a 2xx pulls listing, `fetchExistingPR` returns the first
record (in list order) whose head ref equals the stored branch name, whose
head repository full name equals the stored fork name, and whose base
repository full name equals the configured base repository name — `none`
when no record matches; the scan predicate is characterized by exactly
those three conditions. -/
theorem C4_fetchExistingPR_first_match (cl : GithubClient) (ck : Cookies)
    (r : GhResponse (List PullRecord)) (f : String)
    (hf : ck.fork_full_name = some f) (hne : f ≠ "")
    (h2 : leadingDigitIs2 r.status = true) :
    fetchExistingPR cl ck r =
      (.ok (r.body.find? (prMatches (branchName ck) f cl.baseRepoFullName)),
       [⟨pullsUrl cl, "GET", none⟩]) ∧
    ∀ p : PullRecord,
      prMatches (branchName ck) f cl.baseRepoFullName p = true ↔
        (branchName ck = p.head.ref ∧
         Option.map Repo.full_name p.head.repo = some f ∧
         Option.map Repo.full_name p.base.repo = some cl.baseRepoFullName) := by
  constructor
  · unfold fetchExistingPR
    rw [repoFullName_some ck f hf hne, getGithubResponse_2xx r h2]
    simp only [findMatchingPR_eq_find?]
  · intro p
    cases hh : p.head.repo <;> cases hb : p.base.repo <;>
      simp [prMatches, optRepoFullNameIs, hh, hb]

/-- Witness for C4: among three pull-request records of which exactly one
matches the stored head branch, fork and base identities, the scan
returns exactly that one. -/
theorem C4_witness :
    ([prA, prB, prC].filter (prMatches "edits" "me/site" "org/site") = [prB]) ∧
    fetchExistingPR sampleClient sampleCookies ⟨200, "OK", [prA, prB, prC]⟩ =
      (.ok (some prB), [⟨pullsUrl sampleClient, "GET", none⟩]) := by
  have h := C4_fetchExistingPR_first_match sampleClient sampleCookies
    ⟨200, "OK", [prA, prB, prC]⟩ "me/site" rfl (by decide) rfl
  exact ⟨by decide, by rw [h.1]; rfl⟩

/-- Claim C5: `getUser` against a 401 response returns `undefined` without
raising, and `getBranch` against a 404 response returns `undefined`
without raising. -/
theorem C5_soft_401_and_404 {α β : Type} (st1 st2 : String) (b1 : α) (b2 : β)
    (ck : Cookies) (f : String) (hf : ck.fork_full_name = some f) (hne : f ≠ "") :
    (getUser (⟨401, st1, b1⟩ : GhResponse α)).1 = .ok none ∧
    (getBranch ck (⟨404, st2, b2⟩ : GhResponse β)).1 = .ok none := by
  have h401 : getGithubResponse (⟨401, st1, b1⟩ : GhResponse α) =
      .error (.github ⟨st1, 401⟩) :=
    getGithubResponse_non2xx _ (by show leadingDigitIs2 401 = false; rfl)
  have h404 : getGithubResponse (⟨404, st2, b2⟩ : GhResponse β) =
      .error (.github ⟨st2, 404⟩) :=
    getGithubResponse_non2xx _ (by show leadingDigitIs2 404 = false; rfl)
  constructor
  · simp [getUser, h401]
  · unfold getBranch
    rw [repoFullName_some ck f hf hne, h404]

/-- Witness for C5 at concrete mocked responses. -/
theorem C5_witness :
    (getUser (⟨401, "Unauthorized", ()⟩ : GhResponse Unit)).1 = .ok none ∧
    (getBranch sampleCookies (⟨404, "Not Found", ()⟩ : GhResponse Unit)).1 = .ok none :=
  C5_soft_401_and_404 "Unauthorized" "Not Found" () () sampleCookies "me/site" rfl
    (by decide)

/-- Claim C6: the `content` field `commit` sends is the Unicode-safe
base64 encoding of the file contents, and base64-decoding that payload
reproduces exactly the UTF-8 bytes of the original string. -/
theorem C6_commit_sends_unicode_safe_base64 {α : Type} (ck : Cookies) (f : String)
    (hf : ck.fork_full_name = some f) (hne : f ≠ "") (r : GhResponse α)
    (filePath sha fileContents commitMessage : String) :
    (commit ck r filePath sha fileContents commitMessage).2 =
      [⟨"https://api.github.com/repos/" ++ f ++ "/contents/" ++ filePath, "PUT",
        some (.commitFile
          ⟨commitMessage, b64EncodeUnicode fileContents, sha, branchName ck⟩)⟩] ∧
    b64Decode (b64EncodeUnicode fileContents).toList = some (utf8Bytes fileContents) := by
  constructor
  · unfold commit
    rw [repoFullName_some ck f hf hne]
    cases getGithubResponse r <;> rfl
  · exact b64EncodeUnicode_roundtrip fileContents

/-- Witness for C6 on the multi-byte string of the spec, with the
encoding and the UTF-8 bytes evaluated on that concrete input. -/
theorem C6_witness :
    (commit (⟨some "me/site", none⟩ : Cookies) (⟨200, "OK", ()⟩ : GhResponse Unit)
        "p.md" "abc123" "café ☕" "msg").2 =
      [⟨"https://api.github.com/repos/me/site/contents/p.md", "PUT",
        some (.commitFile ⟨"msg", b64EncodeUnicode "café ☕", "abc123", "master"⟩)⟩] ∧
    b64Decode (b64EncodeUnicode "café ☕").toList = some (utf8Bytes "café ☕") ∧
    b64EncodeUnicode "café ☕" = "Y2Fmw6kg4piV" ∧
    utf8Bytes "café ☕" = [99, 97, 102, 195, 169, 32, 226, 152, 149] := by
  have h := C6_commit_sends_unicode_safe_base64 (⟨some "me/site", none⟩ : Cookies)
    "me/site" rfl (by decide) (⟨200, "OK", ()⟩ : GhResponse Unit)
    "p.md" "abc123" "café ☕" "msg"
  exact ⟨by rw [h.1]; rfl, h.2, by rfl, by rfl⟩

/-- Claim C7: on a successful fork-creation response, `createFork` writes
the response's `full_name` into the fork-identity cookie — a subsequent
cookie read returns exactly that value — and returns the fork record
itself. -/
theorem C7_createFork_persists_full_name (cl : GithubClient) (ck : Cookies)
    (r : GhResponse ForkRecord) (h2 : leadingDigitIs2 r.status = true) :
    createFork cl ck r =
      (.ok r.body, [forkRequest cl], ⟨some r.body.full_name, ck.head_branch⟩) ∧
    getCookie (createFork cl ck r).2.2 FORK_COOKIE_KEY = some r.body.full_name := by
  have hgr := getGithubResponse_2xx r h2
  refine ⟨?_, ?_⟩ <;> simp [createFork, hgr, setCookie, getCookie]

/-- Witness for C7 at a concrete 201 response. -/
theorem C7_witness :
    createFork sampleClient emptyCookies ⟨201, "Created", ⟨"me/site"⟩⟩ =
      (.ok ⟨"me/site"⟩, [forkRequest sampleClient], ⟨some "me/site", none⟩) ∧
    getCookie (createFork sampleClient emptyCookies
        ⟨201, "Created", ⟨"me/site"⟩⟩).2.2 FORK_COOKIE_KEY = some "me/site" :=
  C7_createFork_persists_full_name sampleClient emptyCookies
    ⟨201, "Created", ⟨"me/site"⟩⟩ rfl

/-- Claim C8: every envelope `getGithubPreviewProps` resolves to (rather
than throws) has exactly one of `file` and `error` non-null. -/
theorem C8_file_error_mutually_exclusive {Data : Type} (opts : PreviewOptions Data)
    (fetchResult : Except FetchExn DecodedData) (props : PreviewProps Data)
    (h : getGithubPreviewProps opts fetchResult = .ok props) :
    (props.file ≠ none ∧ props.error = none) ∨
    (props.file = none ∧ props.error ≠ none) := by
  cases fetchResult with
  | ok d =>
    unfold getGithubPreviewProps at h
    cases hp : opts.parse d.content with
    | ok v =>
      simp only [hp] at h
      injection h with h
      subst h
      left
      simp
    | error x =>
      simp only [hp] at h
      exact absurd h (by simp)
  | error e =>
    cases e with
    | github g =>
      injection h with h
      subst h
      right
      simp
    | other x =>
      exact absurd h (by simp [getGithubPreviewProps])

/-- Witness for C8 at the 404 preview envelope. -/
theorem C8_witness :
    ((⟨true, previewSourceProvider samplePreviewOpts, none,
        some ⟨"Not Found", 404⟩⟩ : PreviewProps String).file ≠ none ∧
      (⟨true, previewSourceProvider samplePreviewOpts, none,
        some ⟨"Not Found", 404⟩⟩ : PreviewProps String).error = none) ∨
    ((⟨true, previewSourceProvider samplePreviewOpts, none,
        some ⟨"Not Found", 404⟩⟩ : PreviewProps String).file = none ∧
      (⟨true, previewSourceProvider samplePreviewOpts, none,
        some ⟨"Not Found", 404⟩⟩ : PreviewProps String).error ≠ none) :=
  C8_file_error_mutually_exclusive samplePreviewOpts
    (.error (.github ⟨"Not Found", 404⟩)) _ rfl

/-- Claim C9: the diagnostic logged on a GitHub-originated preview error
never contains the access-token value — two invocations identical except
for the (non-empty) token produce the same string. -/
theorem C9_diagnostic_token_noninterference (path : String)
    (sp : SourceProviderConnection) (t1 t2 : String)
    (h1 : t1 ≠ "") (h2 : t2 ≠ "") :
    githubErrorMessage path (some t1) sp = githubErrorMessage path (some t2) sp := by
  simp [githubErrorMessage, h1, h2]

/-- Witness for C9 with two distinct concrete tokens. -/
theorem C9_witness :
    githubErrorMessage "content/p.md" (some "ghp-first-secret")
        ⟨"me/site", "edits"⟩ =
      githubErrorMessage "content/p.md" (some "other-second-secret")
        ⟨"me/site", "edits"⟩ :=
  C9_diagnostic_token_noninterference "content/p.md" ⟨"me/site", "edits"⟩
    "ghp-first-secret" "other-second-secret" (by decide) (by decide)

/-- Claim C10: a pull-request record whose head repository or base
repository is null never matches — the optional chaining yields
`undefined`, never equal to a string — and the scan skips it and
continues with the remaining records. -/
theorem C10_null_repo_entries_skipped (hbr fn bn : String) (p : PullRecord)
    (ps : List PullRecord) (h : p.head.repo = none ∨ p.base.repo = none) :
    prMatches hbr fn bn p = false ∧
    findMatchingPR hbr fn bn (p :: ps) = findMatchingPR hbr fn bn ps := by
  have hm : prMatches hbr fn bn p = false := by
    rcases h with h | h <;> simp [prMatches, optRepoFullNameIs, h]
  exact ⟨hm, by simp [findMatchingPR, hm]⟩

/-- Witness for C10: a record with a null head repository is skipped and
the match from the rest of the list is still found. -/
theorem C10_witness :
    prMatches "edits" "me/site" "org/site" nullHeadRepoPR = false ∧
    findMatchingPR "edits" "me/site" "org/site" (nullHeadRepoPR :: [prB]) =
      findMatchingPR "edits" "me/site" "org/site" [prB] :=
  C10_null_repo_entries_skipped "edits" "me/site" "org/site" nullHeadRepoPR [prB]
    (Or.inl rfl)

end Tina
